import Mathlib

/-!
Verification of the audio codec and real-time sample pipeline of the
softphone demo repository.  The subject code is the G.711 mu-law codec
and the inbound/outbound audio worklet processors of the archived raw
WebRTC experiments:

* decodeSample8 / decodeSample (inbound-audio-processor.js),
* encodeSample16 / encodeSample (mu-law encoder),
* getSample32 (int16 to float) and getSample16 (float to int16),
* the InboundAudioProcessor queue (handleMessage / process),
* the OutboundAudioProcessor (getHighOrderByte / getLowOrderByte /
  process with its sequence counter).

JavaScript bitwise operators coerce each operand with ToInt32: the
number is reduced modulo 2^32 and the low 32 bits are read back as a
two-complement signed integer.  The jsXxx helpers below model that
coercion exactly, so every bitwise step of the source is reproduced
bit for bit on arbitrary-precision integers.  Floating point samples
are modelled by rationals; every float operation reached by the claims
is exact in binary64 at the claim inputs, so the rational model agrees
with the JavaScript semantics there.
-/

/-- Reduction of an integer modulo 2^32 to its unsigned 32-bit
representative, the first half of the ToInt32 coercion used by every
JavaScript bitwise operator. -/
def jsToUint32 (x : Int) : Nat :=
  (x % 4294967296).toNat

/-- Reading an unsigned 32-bit value back as a two-complement signed
32-bit integer, the second half of ToInt32. -/
def jsOfUint32 (n : Nat) : Int :=
  if n < 2147483648 then (n : Int) else (n : Int) - 4294967296

/-- The full ToInt32 coercion of JavaScript. -/
def jsToInt32 (x : Int) : Int :=
  jsOfUint32 (jsToUint32 x)

/-- JavaScript bitwise and on numbers. -/
def jsAnd (a b : Int) : Int :=
  jsOfUint32 (jsToUint32 a &&& jsToUint32 b)

/-- JavaScript bitwise or on numbers. -/
def jsOr (a b : Int) : Int :=
  jsOfUint32 (jsToUint32 a ||| jsToUint32 b)

/-- JavaScript bitwise complement on numbers: ToInt32 then flip all 32
bits. -/
def jsNot (a : Int) : Int :=
  jsOfUint32 (jsToUint32 a ^^^ 4294967295)

/-- JavaScript arithmetic (sign-propagating) right shift.  After
ToInt32 the shift is a floor division by a power of two, which is what
Int.shiftRight computes. -/
def jsShr (a : Int) (k : Nat) : Int :=
  jsToInt32 a >>> k

/-- JavaScript left shift: ToInt32, shift, keep the low 32 bits. -/
def jsShl (a : Int) (k : Nat) : Int :=
  jsOfUint32 ((jsToUint32 a <<< k) % 4294967296)

/-- Constant BIAS = 0x84 of the mu-law encoder. -/
def BIAS : Int := 0x84

/-- Constant CLIP = 32635 of the mu-law encoder. -/
def CLIP : Int := 32635

/-- The 256-entry segment (exponent) table of the mu-law encoder,
copied verbatim from the source. -/
def encodeTable : List Nat := [
  0,0,1,1,2,2,2,2,3,3,3,3,3,3,3,3,
  4,4,4,4,4,4,4,4,4,4,4,4,4,4,4,4,
  5,5,5,5,5,5,5,5,5,5,5,5,5,5,5,5,
  5,5,5,5,5,5,5,5,5,5,5,5,5,5,5,5,
  6,6,6,6,6,6,6,6,6,6,6,6,6,6,6,6,
  6,6,6,6,6,6,6,6,6,6,6,6,6,6,6,6,
  6,6,6,6,6,6,6,6,6,6,6,6,6,6,6,6,
  6,6,6,6,6,6,6,6,6,6,6,6,6,6,6,6,
  7,7,7,7,7,7,7,7,7,7,7,7,7,7,7,7,
  7,7,7,7,7,7,7,7,7,7,7,7,7,7,7,7,
  7,7,7,7,7,7,7,7,7,7,7,7,7,7,7,7,
  7,7,7,7,7,7,7,7,7,7,7,7,7,7,7,7,
  7,7,7,7,7,7,7,7,7,7,7,7,7,7,7,7,
  7,7,7,7,7,7,7,7,7,7,7,7,7,7,7,7,
  7,7,7,7,7,7,7,7,7,7,7,7,7,7,7,7,
  7,7,7,7,7,7,7,7,7,7,7,7,7,7,7,7]

/-- The 8-entry exponent table of the mu-law decoder, copied verbatim
from the source. -/
def decodeTable : List Int := [0, 132, 396, 924, 1980, 4092, 8316, 16764]

/-- The mu-law decoder decodeSample8 (identical to decodeSample in the
archived encoder file): complement the byte, split it into sign bit 7,
exponent bits 6-4 and mantissa bits 3-0, rebuild the linear sample from
the exponent table, negate when the sign bit is set. -/
def decodeSample8 (sample8 : Int) : Int :=
  let c := jsNot sample8
  let sign := jsAnd c 0x80
  let exponent := (jsAnd (jsShr c 4) 0x07).toNat
  let mantissa := jsAnd c 0x0F
  let sample := decodeTable.getD exponent 0 + jsShl mantissa (exponent + 3)
  if sign ≠ 0 then -sample else sample

/-- The mu-law encoder encodeSample16 (identical to encodeSample in the
inbound processor file).  The source reassigns its local variable
sample16 in place; the successive values are named mag, biased and
clipped here. -/
def encodeSample16 (sample16 : Int) : Int :=
  let sign := jsAnd (jsShr sample16 8) 0x80
  let mag := if sign ≠ 0 then -sample16 else sample16
  let biased := mag + BIAS
  let clipped := if biased > CLIP then CLIP else biased
  let exponent := encodeTable.getD (jsAnd (jsShr clipped 7) 0xFF).toNat 0
  let mantissa := jsAnd (jsShr clipped (exponent + 3)) 0x0F
  jsNot (jsOr (jsOr sign (jsShl (Int.ofNat exponent) 4)) mantissa)

/-- The int16 to float conversion getSample32 of the inbound processor:
divide by 32767 when the sample is strictly positive, by 32768
otherwise. -/
def getSample32 (sample16 : Int) : ℚ :=
  if sample16 > 0 then (sample16 : ℚ) / 32767 else (sample16 : ℚ) / 32768

/-- Truncation of a rational toward zero, the ToIntegerOrInfinity step
of a JavaScript typed-array store (Int.tdiv rounds toward zero). -/
def ratTrunc (q : ℚ) : Int :=
  q.num.tdiv (q.den : Int)

/-- The wrap-around of an Int16Array store: the truncated value modulo
2^16, read back as a signed 16-bit integer. -/
def jsToInt16 (x : Int) : Int :=
  let m := x % 65536
  if m < 32768 then m else m - 65536

/-- The float to int16 conversion getSample16 of the outbound
processors: multiply by 32767 when the sample is strictly positive, by
32768 otherwise, and store the product into an Int16Array cell. -/
def getSample16 (sample32 : ℚ) : Int :=
  if sample32 > 0 then jsToInt16 (ratTrunc (sample32 * 32767))
  else jsToInt16 (ratTrunc (sample32 * 32768))

/-- The handleMessage loop of InboundAudioProcessor: decode each
received byte in order and push the float sample on the tail of the
queue. -/
def handleMessage (queue : List ℚ) : List Int → List ℚ
  | [] => queue
  | b :: rest => handleMessage (queue ++ [getSample32 (decodeSample8 b)]) rest

/-- The process callback of InboundAudioProcessor: fill each of the
requested output positions with the head of the queue when the queue is
nonempty, with 0 otherwise.  Returns the produced block and the
remaining queue. -/
def inboundProcess : List ℚ → Nat → List ℚ × List ℚ
  | q, 0 => ([], q)
  | [], n + 1 =>
    let r := inboundProcess [] n
    (0 :: r.1, r.2)
  | x :: q, n + 1 =>
    let r := inboundProcess q n
    (x :: r.1, r.2)

/-- The getHighOrderByte helper of the outbound processor. -/
def getHighOrderByte (sample16 : Int) : Int :=
  jsAnd (jsShr sample16 8) 0xFF

/-- The getLowOrderByte helper of the outbound processor. -/
def getLowOrderByte (sample16 : Int) : Int :=
  jsAnd sample16 0xFF

/-- The buffer-building loop of the outbound process callback: each
float sample is converted to int16 and written as two bytes, high byte
first (big-endian), at consecutive positions. -/
def outboundBuffer : List ℚ → List Int
  | [] => []
  | s :: rest =>
    let sample16 := getSample16 s
    getHighOrderByte sample16 :: getLowOrderByte sample16 :: outboundBuffer rest

/-- One process call of OutboundAudioProcessor in part_004: when the
input block is absent the call returns without emitting and without
touching the counter; otherwise it posts the serialized buffer together
with the current sequence number and then increments the counter. -/
def outboundProcess (sequenceNumber : Nat) (input : Option (List ℚ)) :
    Nat × Option (List Int × Nat) :=
  match input with
  | none => (sequenceNumber, none)
  | some samples32 => (sequenceNumber + 1, some (outboundBuffer samples32, sequenceNumber))

/-- Iterated outbound process calls, collecting the emitted
(buffer, sequenceNumber) messages in order.  The constructor of
OutboundAudioProcessor starts the counter at 0. -/
def runOutbound : Nat → List (Option (List ℚ)) → List (List Int × Nat)
  | _, [] => []
  | seq, input :: rest =>
    match outboundProcess seq input with
    | (seqNext, none) => runOutbound seqNext rest
    | (seqNext, some msg) => msg :: runOutbound seqNext rest

/-- Modelled from the spec wording of the decode algorithm (claim C2),
independently of the source: complement within 8 bits, split off sign,
exponent and mantissa arithmetically, and combine them through the
8-entry table. -/
def decodeSampleSpec (b : Int) : Int :=
  let c : Int := 255 - b
  let exponent := c / 16 % 8
  let mantissa := c % 16
  let magnitude := decodeTable.getD exponent.toNat 0 + mantissa * 2 ^ (exponent.toNat + 3)
  if 128 ≤ c then -magnitude else magnitude

/-- Characterization of the inbound process callback: the produced
block is the first requested elements of the queue padded with zeros,
and exactly those elements are removed. -/
theorem inboundProcess_spec : ∀ (n : Nat) (q : List ℚ),
    (inboundProcess q n).1 = q.take n ++ List.replicate (n - q.length) 0 ∧
    (inboundProcess q n).2 = q.drop n := by
  intro n
  induction n with
  | zero => intro q; simp [inboundProcess]
  | succ n ih =>
    intro q
    cases q with
    | nil =>
      have h := ih []
      simp [inboundProcess, List.replicate_succ] at h ⊢
      exact h
    | cons x q =>
      have h := ih q
      simp [inboundProcess, Nat.succ_sub_succ] at h ⊢
      exact h

/-- Characterization of the handleMessage loop: it appends the decoded
floats, in byte order, to the tail of the queue. -/
theorem handleMessage_eq : ∀ (bytes : List Int) (q : List ℚ),
    handleMessage q bytes = q ++ bytes.map (fun b => getSample32 (decodeSample8 b)) := by
  intro bytes
  induction bytes with
  | nil => intro q; simp [handleMessage]
  | cons b rest ih =>
    intro q
    simp [handleMessage, ih]

/-- Claim C6: the inbound sample queue is strict FIFO.  Bytes received
are decoded, converted and appended at the tail in arrival order, and a
pull of n samples returns the first min(n, length) queue elements in
order followed by zeros for any shortfall, removing exactly the
returned elements; in particular pushing three samples and pulling two
yields the first two, and a further pull of two yields the third and a
zero. -/
theorem claim_C6_fifo : ∀ (q : List ℚ) (bytes : List Int) (n : Nat),
    handleMessage q bytes = q ++ bytes.map (fun b => getSample32 (decodeSample8 b)) ∧
    (inboundProcess (handleMessage q bytes) n).1 =
      (handleMessage q bytes).take n ++
        List.replicate (n - (handleMessage q bytes).length) 0 ∧
    (inboundProcess (handleMessage q bytes) n).2 = (handleMessage q bytes).drop n ∧
    ∀ s0 s1 s2 : ℚ, inboundProcess [s0, s1, s2] 2 = ([s0, s1], [s2]) ∧
      inboundProcess [s2] 2 = ([s2, 0], []) := by
  intro q bytes n
  refine ⟨handleMessage_eq bytes q, (inboundProcess_spec n _).1, (inboundProcess_spec n _).2,
    fun s0 s1 s2 => ⟨rfl, rfl⟩⟩

/-- Claim C9: pulling from an empty queue is total (never blocks or
throws in the source; the model is a total function) and returns a
block of exactly n zeros, leaving the queue empty. -/
theorem claim_C9_underflow_silence : ∀ n : Nat,
    (inboundProcess [] n).1 = List.replicate n 0 ∧ (inboundProcess [] n).2 = [] := by
  intro n
  have h := inboundProcess_spec n []
  simpa using h

/-- Characterization of iterated outbound process calls: when every
call receives a block, the emitted sequence numbers count up one by one
from the initial counter and each message carries the serialized buffer
of its block. -/
theorem runOutbound_spec : ∀ (inputs : List (Option (List ℚ))) (seq : Nat),
    (∀ o ∈ inputs, o.isSome) →
    (runOutbound seq inputs).map Prod.snd = List.range' seq inputs.length ∧
    (runOutbound seq inputs).map Prod.fst =
      inputs.map (fun o => outboundBuffer (o.getD [])) := by
  intro inputs
  induction inputs with
  | nil => intro seq _; simp [runOutbound]
  | cons o rest ih =>
    intro seq h
    obtain ⟨l, rfl⟩ := Option.isSome_iff_exists.mp (h o (List.mem_cons_self o rest))
    have hrest : ∀ x ∈ rest, x.isSome := fun x hx => h x (List.mem_cons_of_mem _ hx)
    have hr := ih (seq + 1) hrest
    simp [runOutbound, outboundProcess, List.range'_succ, hr.1, hr.2]

/-- Claim C7: the outbound sequence counter starts at 0 and increases
by exactly 1 per emitted block: across N consecutive process calls that
each deliver a block, the emitted sequence numbers are exactly
0, 1, ..., N-1, each paired with the byte buffer of its block. -/
theorem claim_C7_sequence_monotonic : ∀ inputs : List (Option (List ℚ)),
    (∀ o ∈ inputs, o.isSome) →
    (runOutbound 0 inputs).map Prod.snd = List.range inputs.length ∧
    (runOutbound 0 inputs).map Prod.fst =
      inputs.map (fun o => outboundBuffer (o.getD [])) := by
  intro inputs h
  have hr := runOutbound_spec inputs 0 h
  rw [List.range_eq_range']
  exact hr

/-- Witness for claim C7 at a concrete two-block run. -/
theorem claim_C7_witness :
    (∀ o ∈ [some ([] : List ℚ), some ([] : List ℚ)], o.isSome) ∧
    ((runOutbound 0 [some ([] : List ℚ), some ([] : List ℚ)]).map Prod.snd =
      List.range ([some ([] : List ℚ), some ([] : List ℚ)] : List (Option (List ℚ))).length ∧
     (runOutbound 0 [some ([] : List ℚ), some ([] : List ℚ)]).map Prod.fst =
      ([some ([] : List ℚ), some ([] : List ℚ)] : List (Option (List ℚ))).map
        (fun o => outboundBuffer (o.getD []))) :=
  ⟨by simp, claim_C7_sequence_monotonic [some [], some []] (by simp)⟩

/-- Length of the serialized outbound buffer: two bytes per sample. -/
theorem outboundBuffer_length : ∀ samples : List ℚ,
    (outboundBuffer samples).length = 2 * samples.length := by
  intro samples
  induction samples with
  | nil => simp [outboundBuffer]
  | cons s rest ih => simp [outboundBuffer, ih]; ring

/-- Byte layout of the serialized outbound buffer: sample i occupies
positions 2i (high byte) and 2i+1 (low byte). -/
theorem outboundBuffer_getD : ∀ (samples : List ℚ) (i : Nat), i < samples.length →
    (outboundBuffer samples).getD (2 * i) 0 =
      getHighOrderByte (getSample16 (samples.getD i 0)) ∧
    (outboundBuffer samples).getD (2 * i + 1) 0 =
      getLowOrderByte (getSample16 (samples.getD i 0)) := by
  intro samples
  induction samples with
  | nil => intro i h; simp at h
  | cons s rest ih =>
    intro i h
    cases i with
    | zero => simp [outboundBuffer]
    | succ i =>
      have h2 : 2 * (i + 1) = 2 * i + 1 + 1 := by ring
      rw [h2]
      simp only [outboundBuffer, List.getD_cons_succ]
      exact ih i (by simpa using h)

/-- Claim C8: a block of N float samples serializes to a byte buffer of
length exactly 2N, with sample i occupying bytes 2i and 2i+1 high byte
first; in particular the int16 sample 0x1234 yields bytes 0x12 then
0x34. -/
theorem claim_C8_big_endian : ∀ samples : List ℚ,
    (outboundBuffer samples).length = 2 * samples.length ∧
    (∀ i : Nat, i < samples.length →
      (outboundBuffer samples).getD (2 * i) 0 =
        getHighOrderByte (getSample16 (samples.getD i 0)) ∧
      (outboundBuffer samples).getD (2 * i + 1) 0 =
        getLowOrderByte (getSample16 (samples.getD i 0))) ∧
    getHighOrderByte 0x1234 = 0x12 ∧ getLowOrderByte 0x1234 = 0x34 := by
  intro samples
  exact ⟨outboundBuffer_length samples, outboundBuffer_getD samples, by decide, by decide⟩

/-- Witness for claim C8 at the one-sample block [0]. -/
theorem claim_C8_witness :
    (0 : Nat) < ([(0 : ℚ)] : List ℚ).length ∧
    (outboundBuffer [(0 : ℚ)]).getD 0 0 = getHighOrderByte (getSample16 (([(0 : ℚ)]).getD 0 0)) ∧
    (outboundBuffer [(0 : ℚ)]).getD 1 0 = getLowOrderByte (getSample16 (([(0 : ℚ)]).getD 0 0)) :=
  ⟨by simp, by
    have h := (claim_C8_big_endian [(0 : ℚ)]).2.1 0 (by simp)
    simpa using h⟩

/-- Truncation toward zero is the identity on integers. -/
theorem ratTrunc_intCast (z : Int) : ratTrunc (z : ℚ) = z := by
  unfold ratTrunc
  rw [Rat.num_intCast, Rat.den_intCast]
  simp

/-- Claim C5: the float and int16 conversions use asymmetric scaling.
getSample16 multiplies nonnegative samples by 32767 and negative
samples by 32768 (the source branches on strict positivity, which
agrees at zero since both products vanish), so 1.0 maps to 32767 and
-1.0 to -32768; getSample32 divides positive samples by 32767 and
negative samples by 32768, so 32767 maps to exactly 1 and -32768 to
exactly -1. -/
theorem claim_C5_asymmetric_scaling :
    getSample16 1 = 32767 ∧ getSample16 (-1) = -32768 ∧
    getSample32 32767 = 1 ∧ getSample32 (-32768) = -1 ∧
    (∀ q : ℚ, 0 ≤ q → getSample16 q = jsToInt16 (ratTrunc (q * 32767))) ∧
    (∀ q : ℚ, q < 0 → getSample16 q = jsToInt16 (ratTrunc (q * 32768))) ∧
    (∀ s : Int, 0 < s → getSample32 s = (s : ℚ) / 32767) ∧
    (∀ s : Int, s < 0 → getSample32 s = (s : ℚ) / 32768) := by
  refine ⟨?_, ?_, ?_, ?_, ?_, ?_, ?_, ?_⟩
  · unfold getSample16
    rw [if_pos (by norm_num : (1 : ℚ) > 0)]
    rw [show (1 : ℚ) * 32767 = ((32767 : Int) : ℚ) by norm_num, ratTrunc_intCast]
    decide
  · unfold getSample16
    rw [if_neg (by norm_num : ¬ (-1 : ℚ) > 0)]
    rw [show (-1 : ℚ) * 32768 = ((-32768 : Int) : ℚ) by norm_num, ratTrunc_intCast]
    decide
  · unfold getSample32
    rw [if_pos (by norm_num : (32767 : Int) > 0)]
    norm_num
  · unfold getSample32
    rw [if_neg (by norm_num : ¬ (-32768 : Int) > 0)]
    norm_num
  · intro q hq
    unfold getSample16
    by_cases h : q > 0
    · rw [if_pos h]
    · rw [if_neg h]
      have hq0 : q = 0 := le_antisymm (not_lt.mp h) hq
      subst hq0
      norm_num
  · intro q hq
    unfold getSample16
    rw [if_neg (by exact not_lt.mpr (le_of_lt hq))]
  · intro s hs
    unfold getSample32
    rw [if_pos hs]
  · intro s hs
    unfold getSample32
    rw [if_neg (by exact not_lt.mpr (le_of_lt hs))]

/-- Witness for claim C5 at the positive integer sample 5. -/
theorem claim_C5_witness :
    (0 : Int) < 5 ∧ getSample32 5 = ((5 : Int) : ℚ) / 32767 :=
  ⟨by decide, claim_C5_asymmetric_scaling.2.2.2.2.2.2.1 5 (by decide)⟩

/-- Every int16 sample maps to the normalized range under the int16 to
float conversion. -/
theorem getSample32_bounds (s : Int) (h1 : -32768 ≤ s) (h2 : s ≤ 32767) :
    -1 ≤ getSample32 s ∧ getSample32 s ≤ 1 := by
  unfold getSample32
  by_cases h : s > 0
  · rw [if_pos h]
    constructor
    · have hp : (0 : ℚ) ≤ (s : ℚ) / 32767 := by positivity
      linarith
    · rw [div_le_one (by norm_num)]
      exact_mod_cast h2
  · rw [if_neg h]
    push_neg at h
    constructor
    · rw [le_div_iff₀ (by norm_num : (0 : ℚ) < 32768)]
      have hc : (-32768 : ℚ) ≤ (s : ℚ) := by exact_mod_cast h1
      linarith
    · rw [div_le_one (by norm_num)]
      have hc : (s : ℚ) ≤ 32767 := by exact_mod_cast h2
      linarith

set_option maxRecDepth 10000 in
/-- Claim C2: on every byte in [0,255] the decoder follows the spec
algorithm exactly (complement, sign bit 7, exponent bits 6-4, mantissa
bits 3-0, table bias plus shifted mantissa, negation on sign), always
returns a signed 16-bit integer without any error case, and in
particular maps the byte 0xFF to the sample 0. -/
theorem claim_C2_decode_algorithm :
    (∀ b : Nat, b < 256 →
      decodeSample8 (Int.ofNat b) = decodeSampleSpec (Int.ofNat b) ∧
      -32768 ≤ decodeSample8 (Int.ofNat b) ∧ decodeSample8 (Int.ofNat b) ≤ 32767) ∧
    decodeSample8 255 = 0 := by
  constructor
  · decide
  · decide

/-- Witness for claim C2 at the byte 0x55. -/
theorem claim_C2_witness :
    85 < 256 ∧
    (decodeSample8 (Int.ofNat 85) = decodeSampleSpec (Int.ofNat 85) ∧
     -32768 ≤ decodeSample8 (Int.ofNat 85) ∧ decodeSample8 (Int.ofNat 85) ≤ 32767) :=
  ⟨by decide, claim_C2_decode_algorithm.1 85 (by decide)⟩

set_option maxRecDepth 10000 in
/-- Claim C1: for every byte b, encoding the decoded sample gives a
mu-law byte (the low eight bits of the encoder output) whose 3-bit
exponent field, bits 6-4, equals the exponent field of b, even though
the byte itself need not equal b. -/
theorem claim_C1_roundtrip_exponent : ∀ b : Nat, b < 256 →
    encodeSample16 (decodeSample8 (Int.ofNat b)) % 256 / 16 % 8 =
      Int.ofNat b / 16 % 8 := by
  decide

/-- Witness for claim C1 at the byte 37. -/
theorem claim_C1_witness :
    37 < 256 ∧
    encodeSample16 (decodeSample8 (Int.ofNat 37)) % 256 / 16 % 8 =
      Int.ofNat 37 / 16 % 8 :=
  ⟨by decide, claim_C1_roundtrip_exponent 37 (by decide)⟩

set_option maxRecDepth 10000 in
/-- Claim C10: the decoder is odd under the mu-law sign bit, every
decoded magnitude is at most 32124 (strictly inside the int16 range),
and consequently the int16 to float conversion of any decoded sample
lies in the normalized interval [-1, 1]. -/
theorem claim_C10_decode_odd_bounded : ∀ b : Nat, b < 256 →
    decodeSample8 (Int.ofNat (b ^^^ 128)) = -decodeSample8 (Int.ofNat b) ∧
    (decodeSample8 (Int.ofNat b)).natAbs ≤ 32124 ∧
    -1 ≤ getSample32 (decodeSample8 (Int.ofNat b)) ∧
    getSample32 (decodeSample8 (Int.ofNat b)) ≤ 1 := by
  have key : ∀ b : Nat, b < 256 →
      decodeSample8 (Int.ofNat (b ^^^ 128)) = -decodeSample8 (Int.ofNat b) ∧
      (decodeSample8 (Int.ofNat b)).natAbs ≤ 32124 := by decide
  intro b hb
  obtain ⟨h1, h2⟩ := key b hb
  have h3 := getSample32_bounds (decodeSample8 (Int.ofNat b)) (by omega) (by omega)
  exact ⟨h1, h2, h3.1, h3.2⟩

/-- Witness for claim C10 at the byte 0. -/
theorem claim_C10_witness :
    0 < 256 ∧
    (decodeSample8 (Int.ofNat (0 ^^^ 128)) = -decodeSample8 (Int.ofNat 0) ∧
     (decodeSample8 (Int.ofNat 0)).natAbs ≤ 32124 ∧
     -1 ≤ getSample32 (decodeSample8 (Int.ofNat 0)) ∧
     getSample32 (decodeSample8 (Int.ofNat 0)) ≤ 1) :=
  ⟨by decide, claim_C10_decode_odd_bounded 0 (by decide)⟩

/-- A JavaScript bitwise and against a nonnegative mask below 2^31 is
nonnegative and bounded by the mask. -/
theorem jsAnd_mask_bounds (x n : Int) (h0 : 0 ≤ n) (hn : n < 2147483648) :
    0 ≤ jsAnd x n ∧ jsAnd x n ≤ n := by
  unfold jsAnd jsToUint32 jsOfUint32
  have hle : (x % 4294967296).toNat &&& (n % 4294967296).toNat ≤ (n % 4294967296).toNat :=
    Nat.and_le_right
  rw [if_pos (by omega)]
  omega

/-- A JavaScript bitwise or of two byte values is a byte value. -/
theorem jsOr_byte_bounds (a b : Int) (ha0 : 0 ≤ a) (ha : a ≤ 255)
    (hb0 : 0 ≤ b) (hb : b ≤ 255) : 0 ≤ jsOr a b ∧ jsOr a b ≤ 255 := by
  unfold jsOr jsToUint32 jsOfUint32
  have hor : (a % 4294967296).toNat ||| (b % 4294967296).toNat < 256 := by
    have h256 : (256 : Nat) = 2 ^ 8 := by norm_num
    rw [h256]
    exact Nat.or_lt_two_pow (by rw [← h256]; omega) (by rw [← h256]; omega)
  rw [if_pos (by omega)]
  omega

set_option maxRecDepth 10000 in
/-- The JavaScript complement of a byte value y is exactly -(y+1). -/
theorem jsNot_byte (y : Int) (h0 : 0 ≤ y) (h : y ≤ 255) : jsNot y = -(y + 1) := by
  unfold jsNot jsToUint32 jsOfUint32
  have hxor : ∀ m : Nat, m < 256 → m ^^^ 4294967295 = 4294967295 - m := by decide
  rw [hxor _ (by omega)]
  rw [if_neg (by omega)]
  omega

set_option maxRecDepth 10000 in
/-- Every lookup in the 256-entry encoder segment table yields an
exponent between 0 and 7. -/
theorem encodeTable_getD_le (i : Nat) : encodeTable.getD i 0 ≤ 7 := by
  by_cases h : i < 256
  · have key : ∀ j : Nat, j < 256 → encodeTable.getD j 0 ≤ 7 := by decide
    exact key i h
  · rw [List.getD_eq_default]
    · omega
    · have hlen : encodeTable.length = 256 := by decide
      omega

/-- Shifting a table exponent left by four places keeps it a byte
value. -/
theorem jsShl_table_byte : ∀ e : Nat, e ≤ 7 →
    0 ≤ jsShl (Int.ofNat e) 4 ∧ jsShl (Int.ofNat e) 4 ≤ 255 := by decide

/-- The JavaScript complement of an or of three byte values lies in
[-256, -1]. -/
theorem jsNot_or3_range (a b c : Int)
    (ha0 : 0 ≤ a) (ha : a ≤ 255) (hb0 : 0 ≤ b) (hb : b ≤ 255)
    (hc0 : 0 ≤ c) (hc : c ≤ 255) :
    -256 ≤ jsNot (jsOr (jsOr a b) c) ∧ jsNot (jsOr (jsOr a b) c) ≤ -1 := by
  obtain ⟨h1, h2⟩ := jsOr_byte_bounds a b ha0 ha hb0 hb
  obtain ⟨h3, h4⟩ := jsOr_byte_bounds (jsOr a b) c h1 h2 hc0 hc
  rw [jsNot_byte _ h3 h4]
  omega

/-- Counterexample to claim C3 as stated: the encoder of the source
returns the raw JavaScript complement, which is negative; at the input
sample 0 the returned value is -1, not a value in [0, 255]. -/
theorem claim_C3_counterexample :
    encodeSample16 0 = -1 ∧ ¬ (0 ≤ encodeSample16 0 ∧ encodeSample16 0 ≤ 255) := by
  decide

/-- Claim C3 as amended: for every signed 16-bit input the encoder is a
total deterministic function whose value lies in [-256, -1], the
two-complement image of one byte; reducing it modulo 256 yields the
mu-law byte in [0, 255]. -/
theorem claim_C3_amended (s : Int) (h1 : -32768 ≤ s) (h2 : s ≤ 32767) :
    (-256 ≤ encodeSample16 s ∧ encodeSample16 s ≤ -1) ∧
    0 ≤ encodeSample16 s % 256 ∧ encodeSample16 s % 256 ≤ 255 := by
  have main : -256 ≤ encodeSample16 s ∧ encodeSample16 s ≤ -1 := by
    simp only [encodeSample16]
    refine jsNot_or3_range _ _ _ ?_ ?_ ?_ ?_ ?_ ?_
    · exact (jsAnd_mask_bounds (jsShr s 8) 128 (by norm_num) (by norm_num)).1
    · exact le_trans (jsAnd_mask_bounds (jsShr s 8) 128 (by norm_num) (by norm_num)).2
        (by norm_num)
    · exact (jsShl_table_byte _ (encodeTable_getD_le _)).1
    · exact (jsShl_table_byte _ (encodeTable_getD_le _)).2
    · exact (jsAnd_mask_bounds _ 15 (by norm_num) (by norm_num)).1
    · exact le_trans (jsAnd_mask_bounds _ 15 (by norm_num) (by norm_num)).2 (by norm_num)
  exact ⟨main, by omega, by omega⟩

/-- Witness for the amended claim C3 at the sample 1234. -/
theorem claim_C3_witness :
    (-32768 : Int) ≤ 1234 ∧ (1234 : Int) ≤ 32767 ∧
    ((-256 ≤ encodeSample16 1234 ∧ encodeSample16 1234 ≤ -1) ∧
     0 ≤ encodeSample16 1234 % 256 ∧ encodeSample16 1234 % 256 ≤ 255) :=
  ⟨by decide, by decide, claim_C3_amended 1234 (by decide) (by decide)⟩

set_option maxRecDepth 10000 in
/-- Claim C4: the encoder saturates: every sample at or above CLIP
encodes to the same byte as CLIP itself, and symmetrically every sample
at or below -CLIP encodes to the same byte as -CLIP, silently rather
than erroring. -/
theorem claim_C4_clip_saturation : ∀ s : Int,
    (CLIP ≤ s → s ≤ 32767 → encodeSample16 s = encodeSample16 CLIP) ∧
    (-32768 ≤ s → s ≤ -CLIP → encodeSample16 s = encodeSample16 (-CLIP)) := by
  have hpos : ∀ k : Nat, k < 133 →
      encodeSample16 (32635 + (k : Int)) = encodeSample16 32635 := by decide
  have hneg : ∀ k : Nat, k < 134 →
      encodeSample16 (-32768 + (k : Int)) = encodeSample16 (-32635) := by decide
  intro s
  have hc : CLIP = 32635 := rfl
  constructor
  · intro ha hb
    rw [hc] at ha ⊢
    have hs : s = 32635 + (((s - 32635).toNat : Nat) : Int) := by omega
    rw [hs]
    exact hpos _ (by omega)
  · intro ha hb
    rw [hc] at hb ⊢
    have hs : s = -32768 + (((s + 32768).toNat : Nat) : Int) := by omega
    rw [hs]
    exact hneg _ (by omega)

/-- Witness for claim C4 at the samples 32700 and -32700. -/
theorem claim_C4_witness :
    (CLIP ≤ (32700 : Int) ∧ (32700 : Int) ≤ 32767 ∧
      encodeSample16 32700 = encodeSample16 CLIP) ∧
    ((-32768 : Int) ≤ -32700 ∧ (-32700 : Int) ≤ -CLIP ∧
      encodeSample16 (-32700) = encodeSample16 (-CLIP)) :=
  ⟨⟨by decide, by decide, (claim_C4_clip_saturation 32700).1 (by decide) (by decide)⟩,
   ⟨by decide, by decide, (claim_C4_clip_saturation (-32700)).2 (by decide) (by decide)⟩⟩
